import Mathlib

/-!
Verification of the family-jackbox game server core (src/app.py).

The game round state machine of app.py is shallowly embedded here.
Python dicts (players, submissions, votes) are modelled as association
lists that preserve insertion order: assignment to an existing key
replaces the value in place, assignment to a fresh key appends.
Handlers and transitions return Option (GameState x List Emission):
a result of none marks an execution in which the Python code raises an
uncaught exception (IndexError on the question bank, KeyError on a
players lookup); the post-raise partial state is not modelled.
random.shuffle is modelled by a shuffle oracle parameter
(a function on option lists; theorems that depend on its behaviour
assume it permutes its input).  The periodic one-second ticks of the
background timer are abstracted away: the model records which timer
callback is pending (the live timer thread of the source), and a
timer_expire event runs the pending callback, which is exactly what the
source thread does once time_left reaches zero; the thread is killed
only when start_timer launches a replacement, as in the source.
-/

inductive Phase
  | LOBBY
  | BLUFF_INPUT
  | VOTING
  | REVEAL
  | SCOREBOARD
  deriving DecidableEq, Repr

/-- The two timer expiry callbacks that app.py passes to start_timer. -/
inductive TimerCb
  | autoAdvanceInput
  | autoAdvanceVoting
  deriving DecidableEq, Repr

structure Question where
  text : String
  answer : String
  house_lies : List String
  deriving DecidableEq, Repr

structure Player where
  name : String
  score : Nat
  connected : Bool
  deriving DecidableEq, Repr

/-- One entry of the options list built at VOTING entry.  The source uses
a dict with keys text / type / author and, for player lies only, sid;
type is one of the strings TRUTH, LIE, HOUSE_LIE. -/
structure OptionEntry where
  text : String
  type : String
  author : String
  sid : Option String
  deriving DecidableEq, Repr

structure RevealEvent where
  type : String
  text : String
  author : String
  voters : List String
  deriving DecidableEq, Repr

/-- The state_update payload assembled by broadcast_state.  Fields that a
phase branch does not set are none. -/
structure HostData where
  state : Phase
  time_left : Nat
  players : List Player
  room_code : Option String := none
  question : Option String := none
  submitted_players : Option (List String) := none
  options : Option (List OptionEntry) := none
  reveal_sequence : Option (List RevealEvent) := none
  truth : Option String := none
  leaderboard : Option (List Player) := none
  deriving DecidableEq, Repr

inductive Payload
  | stateUpdate (hd : HostData)
  | errorMsg (m : String)
  | submittedSuccess
  | votedSuccess
  | joinedSuccess (name : String)
  | questionAdded (q : Question)
  deriving DecidableEq, Repr

/-- socketio.emit broadcasts to every connected client (host and players
alike); emit inside a handler answers only the requesting client. -/
inductive Audience
  | all
  | requester
  deriving DecidableEq, Repr

def Emission := Audience × Payload

instance : DecidableEq Emission := by
  unfold Emission
  infer_instance

structure GameState where
  state : Phase
  players : List (String × Player)
  questions : List Question
  current_question_index : Nat
  submissions : List (String × String)
  house_lies_active : List String
  votes : List (String × String)
  time_left : Nat
  timer_thread : Option TimerCb
  current_options : List OptionEntry
  reveal_sequence : List RevealEvent
  deriving DecidableEq, Repr

/-- The state built by GameState.__init__.  In the source,
current_options and reveal_sequence are attributes first created by
assignment at VOTING / REVEAL entry; they are initialised to [] here and
are never read by the model before being assigned on the paths the
theorems use. -/
def initial_state : GameState where
  state := Phase.LOBBY
  players := []
  questions := []
  current_question_index := 0
  submissions := []
  house_lies_active := []
  votes := []
  time_left := 0
  timer_thread := none
  current_options := []
  reveal_sequence := []

-- ---------------------------------------------------------------------------
-- Association-list operations mirroring Python dict behaviour
-- ---------------------------------------------------------------------------

/-- Python str.lower() on one character (the ASCII range the app's
content uses). -/
def lowerChar (c : Char) : Char :=
  if 65 ≤ c.toNat ∧ c.toNat ≤ 90 then Char.ofNat (c.toNat + 32) else c

/-- Python str.strip()'s whitespace set (ASCII). -/
def isSpaceChar (c : Char) : Bool :=
  c.toNat = 32 || (9 ≤ c.toNat && c.toNat ≤ 13)

def dropLeading : List Char → List Char
  | [] => []
  | c :: t => if isSpaceChar c then dropLeading t else c :: t

/-- Python s.strip(): remove leading and trailing whitespace. -/
def strip_str (s : String) : String :=
  String.mk ((dropLeading ((dropLeading s.data).reverse)).reverse)

/-- Python lie.lower().strip(): lowercase, then remove leading and
trailing whitespace. -/
def lower_strip (s : String) : String :=
  strip_str (String.mk (s.data.map lowerChar))

def lookup {α : Type} (k : String) : List (String × α) → Option α
  | [] => none
  | (k', v) :: t => if k' = k then some v else lookup k t

/-- Python dict assignment: replace the value at the first matching key,
or append a fresh entry at the end (dicts preserve insertion order). -/
def upsert {α : Type} (k : String) (v : α) : List (String × α) → List (String × α)
  | [] => [(k, v)]
  | (k', v') :: t => if k' = k then (k', v) :: t else (k', v') :: upsert k v t

def containsKey {α : Type} (k : String) (l : List (String × α)) : Bool :=
  (lookup k l).isSome

/-- game.players[sid]['score'] += amt; none when sid is absent (KeyError). -/
def addScore (sid : String) (amt : Nat) : List (String × Player) → Option (List (String × Player))
  | [] => none
  | (k, p) :: t =>
    if k = sid then some ((k, { p with score := p.score + amt }) :: t)
    else (addScore sid amt t).map (fun t' => (k, p) :: t')

/-- GameState.add_player: players[sid] = fresh record (score 0, connected). -/
def add_player (sid name : String) (players : List (String × Player)) :
    List (String × Player) :=
  upsert sid { name := name, score := 0, connected := true } players

/-- GameState.remove_player: flip connected to false if the sid is known. -/
def remove_player (sid : String) : List (String × Player) → List (String × Player)
  | [] => []
  | (k, p) :: t =>
    if k = sid then (k, { p with connected := false }) :: t
    else (k, p) :: remove_player sid t

-- ---------------------------------------------------------------------------
-- View projection (broadcast_state)
-- ---------------------------------------------------------------------------

/-- The names of the submitting players, in submissions order; none when a
submission sid is unknown to the registry (KeyError in the source list
comprehension). -/
def names_of (players : List (String × Player)) :
    List (String × String) → Option (List String)
  | [] => some []
  | (sid, _) :: rest =>
    match lookup sid players with
    | none => none
    | some p => (names_of players rest).map (fun ns => p.name :: ns)

/-- Stable insertion of a player into a list sorted by descending score;
an earlier element stays in front of later elements of equal score,
matching Python sorted(..., reverse=True). -/
def insert_desc (p : Player) : List Player → List Player
  | [] => [p]
  | q :: t => if q.score ≤ p.score then p :: q :: t else q :: insert_desc p t

def sort_desc : List Player → List Player
  | [] => []
  | p :: t => insert_desc p (sort_desc t)

/-- broadcast_state without the transport: builds the single host_data
payload of the source.  none marks the executions in which the source
raises (question index out of bounds, or an unknown submission sid). -/
def host_view (s : GameState) : Option HostData :=
  let base : HostData :=
    { state := s.state, time_left := s.time_left, players := s.players.map (fun e => e.2) }
  match s.state with
  | Phase.LOBBY => some { base with room_code := some "FAMILY" }
  | Phase.BLUFF_INPUT =>
    match s.questions[s.current_question_index]? with
    | none => none
    | some q =>
      match names_of s.players s.submissions with
      | none => none
      | some ns => some { base with question := some q.text, submitted_players := some ns }
  | Phase.VOTING =>
    match s.questions[s.current_question_index]? with
    | none => none
    | some q =>
      some { base with question := some q.text, options := some s.current_options }
  | Phase.REVEAL =>
    match s.questions[s.current_question_index]? with
    | none => none
    | some q =>
      some { base with reveal_sequence := some s.reveal_sequence,
                       question := some q.text, truth := some q.answer }
  | Phase.SCOREBOARD =>
    some { base with leaderboard := some (sort_desc (s.players.map (fun e => e.2))) }

/-- broadcast_state: one state_update, emitted to every connected client. -/
def broadcast_state (s : GameState) : Option Emission :=
  (host_view s).map (fun hd => (Audience.all, Payload.stateUpdate hd))

-- ---------------------------------------------------------------------------
-- Timer service
-- ---------------------------------------------------------------------------

/-- start_timer: sets time_left, kills any previous timer thread and
launches the new one (so exactly one callback is pending afterwards). -/
def start_timer (duration : Nat) (cb : TimerCb) (s : GameState) : GameState :=
  { s with time_left := duration, timer_thread := some cb }

-- ---------------------------------------------------------------------------
-- Option building and phase transitions
-- ---------------------------------------------------------------------------

def truth_option (q : Question) : OptionEntry :=
  { text := q.answer, type := "TRUTH", author := "HOUSE", sid := none }

def house_option (l : String) : OptionEntry :=
  { text := l, type := "HOUSE_LIE", author := "HOUSE", sid := none }

/-- One LIE option per submission, in submissions order; the author field
is the submitting player's registered name (KeyError, hence none, when
the sid is unknown). -/
def player_lie_options (players : List (String × Player)) :
    List (String × String) → Option (List OptionEntry)
  | [] => some []
  | (sid, lie) :: rest =>
    match lookup sid players with
    | none => none
    | some p =>
      (player_lie_options players rest).map
        (fun os => { text := lie, type := "LIE", author := p.name, sid := some sid } :: os)

/-- transition_to_voting: enter VOTING, activate the current question's
house lies, build truth + player lies + house lies, shuffle once and
freeze, broadcast, then start the 30 second voting timer.  The broadcast
payload is computed before start_timer runs, so it carries the previous
time_left, as in the source. -/
def transition_to_voting (σ : List OptionEntry → List OptionEntry) (s : GameState) :
    Option (GameState × List Emission) :=
  let s1 := { s with state := Phase.VOTING }
  match s1.questions[s1.current_question_index]? with
  | none => none
  | some q =>
    let s2 := { s1 with house_lies_active := q.house_lies }
    match player_lie_options s2.players s2.submissions with
    | none => none
    | some lieOpts =>
      let opts := truth_option q :: (lieOpts ++ q.house_lies.map house_option)
      let s3 := { s2 with current_options := σ opts }
      match broadcast_state s3 with
      | none => none
      | some em => some (start_timer 30 TimerCb.autoAdvanceVoting s3, [em])

/-- The author-award step for one matching vote: a player lie pays its
author 500 points unless the voter is the author; reading sid from an
option without one is a KeyError (none); non-LIE options award nothing. -/
def award_author (o : OptionEntry) (vid : String)
    (players : List (String × Player)) : Option (List (String × Player)) :=
  if o.type = "LIE" then
    match o.sid with
    | none => none
    | some a => if vid = a then some players else addScore a 500 players
  else some players

/-- The inner loop of the reveal pass for one non-truth option: walk the
votes in insertion order, collect matching voters' names, and give the
author of a player lie 500 points per vote that is not the author's own. -/
def lie_pass (o : OptionEntry) :
    List (String × String) → List (String × Player) →
    Option (List String × List (String × Player))
  | [], players => some ([], players)
  | (vid, vtext) :: rest, players =>
    if vtext = o.text then
      match lookup vid players with
      | none => none
      | some pv =>
        match award_author o vid players with
        | none => none
        | some players' =>
          match lie_pass o rest players' with
          | none => none
          | some (vs, ps) => some (pv.name :: vs, ps)
    else lie_pass o rest players

/-- The first reveal loop: every option except TRUTH options, in the
frozen options order; each produces a reveal event whose type string is
LIE (the source hardcodes it, also for house lies). -/
def reveal_lies :
    List OptionEntry → List (String × String) → List (String × Player) →
    Option (List (String × Player) × List RevealEvent)
  | [], _, players => some (players, [])
  | o :: os, votes, players =>
    if o.type = "TRUTH" then reveal_lies os votes players
    else
      match lie_pass o votes players with
      | none => none
      | some (vs, players') =>
        match reveal_lies os votes players' with
        | none => none
        | some (ps, evs) =>
          some (ps, { type := "LIE", text := o.text, author := o.author, voters := vs } :: evs)

/-- The second reveal loop: every vote whose text equals the truth gives
its voter 1000 points and records the voter's name. -/
def truth_pass (answer : String) :
    List (String × String) → List (String × Player) →
    Option (List String × List (String × Player))
  | [], players => some ([], players)
  | (vid, vtext) :: rest, players =>
    if vtext = answer then
      match lookup vid players with
      | none => none
      | some pv =>
        match addScore vid 1000 players with
        | none => none
        | some players' =>
          match truth_pass answer rest players' with
          | none => none
          | some (vs, ps) => some (pv.name :: vs, ps)
    else truth_pass answer rest players

/-- transition_to_reveal: enter REVEAL, run the scoring pass over the
frozen options and the collected votes, store the reveal sequence
(truth entry last) and broadcast.  No timer is started and the pending
timer thread is not touched. -/
def transition_to_reveal (s : GameState) : Option (GameState × List Emission) :=
  let s1 := { s with state := Phase.REVEAL }
  match s1.questions[s1.current_question_index]? with
  | none => none
  | some q =>
    match reveal_lies s1.current_options s1.votes s1.players with
    | none => none
    | some (players1, lieEvents) =>
      match truth_pass q.answer s1.votes players1 with
      | none => none
      | some (truthVoters, players2) =>
        let s2 := { s1 with
          players := players2,
          reveal_sequence :=
            lieEvents ++ [{ type := "TRUTH", text := q.answer,
                            author := "THE TRUTH", voters := truthVoters }] }
        match broadcast_state s2 with
        | none => none
        | some em => some (s2, [em])

/-- auto_advance_input's synthesis loop: for every connected player
without a submission, in registry order, append the placeholder lie to
the submissions dict. -/
def add_placeholders :
    List (String × Player) → List (String × String) → List (String × String)
  | [], subs => subs
  | (sid, p) :: rest, subs =>
    add_placeholders rest
      (if containsKey sid subs = false ∧ p.connected then
        subs ++ [(sid, p.name ++ " fell asleep")]
      else subs)

/-- auto_advance_input: synthesize placeholder lies, then go to VOTING. -/
def auto_advance_input (σ : List OptionEntry → List OptionEntry) (s : GameState) :
    Option (GameState × List Emission) :=
  transition_to_voting σ { s with submissions := add_placeholders s.players s.submissions }

-- ---------------------------------------------------------------------------
-- Socket event handlers
-- ---------------------------------------------------------------------------

def join_game (sid name : String) (s : GameState) : Option (GameState × List Emission) :=
  let s1 := { s with players := add_player sid name s.players }
  match broadcast_state s1 with
  | none => none
  | some em => some (s1, [em, (Audience.requester, Payload.joinedSuccess name)])

/-- add_question: filter whitespace-only house lies, append the question
to the bank (no phase check), announce it. -/
def add_question (qtext ans : String) (hl : List String) (s : GameState) :
    Option (GameState × List Emission) :=
  let newQ : Question :=
    { text := qtext, answer := ans, house_lies := hl.filter (fun l => strip_str l ≠ "") }
  some ({ s with questions := s.questions ++ [newQ] },
        [(Audience.all, Payload.questionAdded newQ)])

/-- start_game: silent no-op on an empty bank, otherwise enter
BLUFF_INPUT at question 0 with reset round data and a 60 second timer. -/
def start_game (s : GameState) : Option (GameState × List Emission) :=
  if s.questions.isEmpty then some (s, [])
  else
    let s1 := { s with
      state := Phase.BLUFF_INPUT, current_question_index := 0,
      submissions := [], votes := [], house_lies_active := [] }
    match broadcast_state s1 with
    | none => none
    | some em => some (start_timer 60 TimerCb.autoAdvanceInput s1, [em])

/-- submit_lie: no phase check.  Reads the current question (IndexError,
hence none, when the index is out of bounds), rejects a lie equal to the
truth after lowercasing and trimming, otherwise records it, acknowledges,
broadcasts, and transitions to VOTING when the number of submissions
reaches the number of connected players. -/
def submit_lie (σ : List OptionEntry → List OptionEntry) (sid lie : String)
    (s : GameState) : Option (GameState × List Emission) :=
  match s.questions[s.current_question_index]? with
  | none => none
  | some q =>
    if lower_strip lie = lower_strip q.answer then
      some (s, [(Audience.requester, Payload.errorMsg "Too close to the Truth! Try again.")])
    else
      let s1 := { s with submissions := upsert sid lie s.submissions }
      match broadcast_state s1 with
      | none => none
      | some em =>
        let active := s1.players.filter (fun e => e.2.connected)
        if active.length ≤ s1.submissions.length then
          match transition_to_voting σ s1 with
          | none => none
          | some (s2, em2) =>
            some (s2, (Audience.requester, Payload.submittedSuccess) :: em :: em2)
        else
          some (s1, [(Audience.requester, Payload.submittedSuccess), em])

/-- submit_vote: no phase check.  Records the vote, acknowledges, and
transitions to REVEAL when the number of votes reaches the number of
connected players. -/
def submit_vote (sid vote : String) (s : GameState) : Option (GameState × List Emission) :=
  let s1 := { s with votes := upsert sid vote s.votes }
  let active := s1.players.filter (fun e => e.2.connected)
  if active.length ≤ s1.votes.length then
    match transition_to_reveal s1 with
    | none => none
    | some (s2, em2) =>
      some (s2, (Audience.requester, Payload.votedSuccess) :: em2)
  else
    some (s1, [(Audience.requester, Payload.votedSuccess)])

/-- next_round handler: GameState.next_round always increments the index;
within bounds re-enters BLUFF_INPUT with reset round data and a fresh 60
second timer, otherwise enters SCOREBOARD. -/
def next_round (s : GameState) : Option (GameState × List Emission) :=
  let s0 := { s with current_question_index := s.current_question_index + 1 }
  if s0.current_question_index < s0.questions.length then
    let s1 := { s0 with
      state := Phase.BLUFF_INPUT,
      submissions := [], votes := [], house_lies_active := [] }
    match broadcast_state s1 with
    | none => none
    | some em => some (start_timer 60 TimerCb.autoAdvanceInput s1, [em])
  else
    let s1 := { s0 with state := Phase.SCOREBOARD }
    match broadcast_state s1 with
    | none => none
    | some em => some (s1, [em])

/-- Expiry of the pending timer thread: the countdown loop has reached
zero, so the thread runs its phase callback and terminates.  none when no
timer thread is alive (no such event can occur then). -/
def timer_expire (σ : List OptionEntry → List OptionEntry) (s : GameState) :
    Option (GameState × List Emission) :=
  match s.timer_thread with
  | none => none
  | some cb =>
    let s1 := { s with timer_thread := none, time_left := 0 }
    match cb with
    | TimerCb.autoAdvanceInput => auto_advance_input σ s1
    | TimerCb.autoAdvanceVoting => transition_to_reveal s1

-- ---------------------------------------------------------------------------
-- Event-step semantics
-- ---------------------------------------------------------------------------

/-- The inbound events that mutate game state.  disconnect applies
GameState.remove_player, the registry effect the spec assigns to a
transport-level disconnect; connect and host_login mutate nothing and
are omitted. -/
inductive Event
  | join (sid name : String)
  | disconnect (sid : String)
  | addQuestion (qtext ans : String) (hl : List String)
  | startGame
  | submitLie (sid lie : String)
  | submitVote (sid vote : String)
  | nextRound
  | timerExpire
  deriving Repr

def step (σ : List OptionEntry → List OptionEntry) (s : GameState) :
    Event → Option (GameState × List Emission)
  | Event.join sid name => join_game sid name s
  | Event.disconnect sid => some ({ s with players := remove_player sid s.players }, [])
  | Event.addQuestion qtext ans hl => add_question qtext ans hl s
  | Event.startGame => start_game s
  | Event.submitLie sid lie => submit_lie σ sid lie s
  | Event.submitVote sid vote => submit_vote sid vote s
  | Event.nextRound => next_round s
  | Event.timerExpire => timer_expire σ s

/-- Run a list of events from a state, ignoring emissions; the identity
shuffle oracle (a legal permutation) is used, so concrete traces are
executable. -/
def run (s : GameState) : List Event → Option GameState
  | [] => some s
  | e :: es =>
    match step id s e with
    | none => none
    | some (s', _) => run s' es

/-- Project a function over the final state of a concrete trace. -/
def after {α : Type} (t : List Event) (f : GameState → α) : Option α :=
  (run initial_state t).map f

def scoreOf (sid : String) (s : GameState) : Option Nat :=
  (lookup sid s.players).map (fun p => p.score)

-- ---------------------------------------------------------------------------
-- Spec-side scoring counts (the scoring law of the spec, stated as sums)
-- ---------------------------------------------------------------------------

def scoreAdd (amt : Nat) (p : Player) : Player := { p with score := p.score + amt }

/-- The number of 500-point credits one option owes player x under the
spec's scoring law: only a player lie authored by x earns, once per vote
for its text cast by someone other than x. -/
def lieCredit (o : OptionEntry) (votes : List (String × String)) (x : String) : Nat :=
  if o.type = "LIE" ∧ o.sid = some x then
    votes.countP (fun v => v.2 == o.text && !(v.1 == x))
  else 0

def lieCredits (options : List OptionEntry) (votes : List (String × String))
    (x : String) : Nat :=
  (options.map (fun o => lieCredit o votes x)).sum

/-- The number of 1000-point truth awards for player x: one per vote cast
by x whose text equals the truth. -/
def truthVotes (answer : String) (votes : List (String × String)) (x : String) : Nat :=
  votes.countP (fun v => v.1 == x && v.2 == answer)

-- ---------------------------------------------------------------------------
-- Concrete traces and states referenced by the claim theorems
-- ---------------------------------------------------------------------------

/-- One question, one player: the player submits a lie, then votes the
truth, entering REVEAL through the voting quorum with the 30 second
voting timer still pending. -/
def c1Trace : List Event :=
  [Event.addQuestion "Q" "T" [], Event.join "A" "Alice", Event.startGame,
   Event.submitLie "A" "L", Event.submitVote "A" "T"]

/-- A LOBBY state with one question and one joined player. -/
def c2PreTrace : List Event :=
  [Event.addQuestion "Q" "T" [], Event.join "A" "Alice"]

def c2LieTrace : List Event := c2PreTrace ++ [Event.submitLie "A" "L"]

/-- A REVEAL-phase state receiving a stale vote. -/
def c2State : GameState :=
  { initial_state with
    state := Phase.REVEAL,
    players := [("A", { name := "Alice", score := 0, connected := true })],
    questions := [{ text := "Q", answer := "T", house_lies := [] }] }

def c2Pair : GameState × List Emission :=
  (submit_vote "A" "nope" c2State).getD (initial_state, [])

/-- A LOBBY state with one question and one joined player, receiving an
out-of-phase lie. -/
def c2bState : GameState :=
  { initial_state with
    players := [("A", { name := "Alice", score := 0, connected := true })],
    questions := [{ text := "Q", answer := "T", house_lies := [] }] }

def c2LiePair : GameState × List Emission :=
  (submit_lie id "A" "L" c2bState).getD (initial_state, [])

/-- A full first round followed by next_round into the second round. -/
def c3Trace : List Event :=
  [Event.addQuestion "Q1" "T1" [], Event.addQuestion "Q2" "T2" [],
   Event.join "A" "Alice", Event.startGame, Event.submitLie "A" "L",
   Event.submitVote "A" "T1", Event.nextRound]

/-- A REVEAL state after round one of two, carrying that round's frozen
options and reveal sequence. -/
def c3State : GameState :=
  { initial_state with
    state := Phase.REVEAL,
    players := [("A", { name := "Alice", score := 1000, connected := true })],
    questions := [{ text := "Q1", answer := "T1", house_lies := [] },
                  { text := "Q2", answer := "T2", house_lies := [] }],
    submissions := [("A", "L")], votes := [("A", "T1")],
    current_options := [{ text := "T1", type := "TRUTH", author := "HOUSE", sid := none }],
    reveal_sequence :=
      [{ type := "TRUTH", text := "T1", author := "THE TRUTH", voters := ["Alice"] }] }

def c3Pair : GameState × List Emission := (next_round c3State).getD (initial_state, [])

def c3bState : GameState :=
  { initial_state with
    questions := [{ text := "Q", answer := "T", house_lies := [] }] }

def c3bPair : GameState × List Emission := (start_game c3bState).getD (initial_state, [])

/-- Four players; two submit and disconnect; a third submission then
meets the count-based quorum although the fourth, connected, player has
no submission. -/
def c4Trace : List Event :=
  [Event.addQuestion "Q" "T" [], Event.join "A" "Alice", Event.join "B" "Bob",
   Event.join "C" "Carol", Event.join "D" "Dave", Event.startGame,
   Event.submitLie "A" "a", Event.submitLie "B" "b",
   Event.disconnect "A", Event.disconnect "B", Event.submitLie "C" "c"]

/-- Two registered players, one of them disconnected. -/
def c4State : GameState :=
  { initial_state with
    state := Phase.BLUFF_INPUT,
    players := [("A", { name := "Alice", score := 0, connected := true }),
                ("B", { name := "Bob", score := 0, connected := false })],
    questions := [{ text := "Q", answer := "T", house_lies := [] }] }

def c4Pair : GameState × List Emission :=
  (submit_lie id "A" "L" c4State).getD (initial_state, [])

/-- The spec's worked scenario: truth Paris, house lie Lyon, P1 submits
Berlin, P2 submits Madrid, P1 votes Madrid, P2 votes Paris. -/
def c5State : GameState :=
  { initial_state with
    state := Phase.VOTING,
    players := [("P1", { name := "P1", score := 0, connected := true }),
                ("P2", { name := "P2", score := 0, connected := true })],
    questions := [{ text := "Capital?", answer := "Paris", house_lies := ["Lyon"] }],
    submissions := [("P1", "Berlin"), ("P2", "Madrid")],
    votes := [("P1", "Madrid"), ("P2", "Paris")],
    current_options :=
      [{ text := "Paris", type := "TRUTH", author := "HOUSE", sid := none },
       { text := "Berlin", type := "LIE", author := "P1", sid := some "P1" },
       { text := "Madrid", type := "LIE", author := "P2", sid := some "P2" },
       { text := "Lyon", type := "HOUSE_LIE", author := "HOUSE", sid := none }] }

def c5Pair : GameState × List Emission :=
  (transition_to_reveal c5State).getD (initial_state, [])

/-- One player, truth Paris; the player tries to submit the truth. -/
def c6Trace : List Event :=
  [Event.addQuestion "Q" "Paris" [], Event.join "A" "Alice", Event.startGame]

def c6wState : GameState :=
  { initial_state with
    state := Phase.BLUFF_INPUT,
    players := [("A", { name := "Alice", score := 0, connected := true }),
                ("B", { name := "Bob", score := 0, connected := true })],
    questions := [{ text := "Q", answer := "Paris", house_lies := [] }] }

def c6wPair : GameState × List Emission :=
  (submit_lie id "A" "Berlin" c6wState).getD (initial_state, [])

def c6tState : GameState :=
  { initial_state with
    state := Phase.BLUFF_INPUT,
    players := [("A", { name := "Alice", score := 0, connected := true })],
    questions := [{ text := "Q", answer := "Paris", house_lies := ["Lyon"] }],
    submissions := [("A", "Berlin")] }

def c6tPair : GameState × List Emission :=
  (transition_to_voting id c6tState).getD (initial_state, [])

/-- A BLUFF_INPUT state ready to enter VOTING. -/
def c7State : GameState :=
  { initial_state with
    state := Phase.BLUFF_INPUT,
    players := [("A", { name := "Alice", score := 0, connected := true })],
    questions := [{ text := "Q", answer := "T", house_lies := ["H1"] }],
    submissions := [("A", "L")] }

def c7Pair : GameState × List Emission :=
  (transition_to_voting id c7State).getD (initial_state, [])

def c7LieOpts : List OptionEntry :=
  [{ text := "L", type := "LIE", author := "Alice", sid := some "A" }]

/-- A REVEAL state after the first of two questions. -/
def c8State : GameState :=
  { initial_state with
    state := Phase.REVEAL,
    questions := [{ text := "Q1", answer := "T1", house_lies := [] },
                  { text := "Q2", answer := "T2", house_lies := [] }] }

def c8Pair : GameState × List Emission := (next_round c8State).getD (initial_state, [])

/-- One question with a house lie, one player; the submission meets the
quorum, so the step enters VOTING and broadcasts the voting payload. -/
def c9Pre : List Event := [Event.addQuestion "Q" "T" ["H"], Event.join "A" "Alice"]

/-- Projection of an emission to its audience and, for state updates, the
options carried on the wire. -/
def emissionOptionsView (e : Emission) : Audience × Option (List OptionEntry) :=
  (e.1, match e.2 with
        | Payload.stateUpdate hd => hd.options
        | _ => none)

-- ---------------------------------------------------------------------------
-- Lemmas: association lists and score updates
-- ---------------------------------------------------------------------------

lemma scoreAdd_scoreAdd (m n : Nat) (p : Player) :
    scoreAdd m (scoreAdd n p) = scoreAdd (n + m) p := by
  simp [scoreAdd, Nat.add_assoc]

lemma scoreAdd_zero (p : Player) : scoreAdd 0 p = p := rfl

lemma map_scoreAdd_zero (o : Option Player) : o.map (scoreAdd 0) = o := by
  cases o <;> simp [scoreAdd_zero]

lemma addScore_lookup {sid : String} {amt : Nat} {ps ps' : List (String × Player)}
    (h : addScore sid amt ps = some ps') (x : String) :
    lookup x ps' = if x = sid then (lookup x ps).map (scoreAdd amt) else lookup x ps := by
  induction ps generalizing ps' with
  | nil => simp [addScore] at h
  | cons e t ih =>
    obtain ⟨k, p⟩ := e
    simp only [addScore] at h
    split at h
    · rename_i hk
      subst hk
      simp only [Option.some.injEq] at h
      subst h
      by_cases hx : x = k
      · subst hx
        simp [lookup, scoreAdd]
      · simp [lookup, Ne.symm hx, hx]
    · rename_i hk
      cases ht : addScore sid amt t with
      | none => rw [ht] at h; simp at h
      | some t' =>
        rw [ht] at h
        simp only [Option.map_some', Option.some.injEq] at h
        subst h
        by_cases hx : k = x
        · subst hx
          have hxs : ¬ k = sid := hk
          simp [lookup, hxs]
        · simp only [lookup, if_neg hx]
          exact ih ht

lemma containsKey_mem {α : Type} {k : String} {l : List (String × α)}
    (h : containsKey k l = true) : k ∈ l.map Prod.fst := by
  induction l with
  | nil => simp [containsKey, lookup] at h
  | cons e t ih =>
    obtain ⟨k', v⟩ := e
    by_cases hk : k' = k
    · subst hk; simp
    · simp only [containsKey, lookup, if_neg hk] at h
      simp only [List.map_cons, List.mem_cons]
      exact Or.inr (ih h)

lemma lookup_isSome_of_containsKey {α : Type} {k : String} {l : List (String × α)}
    (h : containsKey k l = true) : (lookup k l).isSome := h

lemma nodup_subset_length {α : Type} [DecidableEq α] {l₁ l₂ : List α}
    (h : l₁.Nodup) (hs : l₁ ⊆ l₂) : l₁.length ≤ l₂.length := by
  have h1 : l₁.toFinset.card = l₁.length := List.toFinset_card_of_nodup h
  have h2 : l₁.toFinset ⊆ l₂.toFinset := by
    intro a ha
    simp only [List.mem_toFinset] at ha ⊢
    exact hs ha
  have h3 : l₂.toFinset.card ≤ l₂.length := l₂.toFinset_card_le
  have := Finset.card_le_card h2
  omega

-- ---------------------------------------------------------------------------
-- Lemmas: the scoring pass computes the spec's scoring sums
-- ---------------------------------------------------------------------------

lemma lieCredit_nil (o : OptionEntry) (x : String) : lieCredit o [] x = 0 := by
  simp [lieCredit]

lemma lieCredit_cons (o : OptionEntry) (vid vtext : String)
    (rest : List (String × String)) (x : String) :
    lieCredit o ((vid, vtext) :: rest) x =
      lieCredit o rest x +
        (if o.type = "LIE" ∧ o.sid = some x ∧ vtext = o.text ∧ ¬ vid = x then 1 else 0) := by
  by_cases hc : o.type = "LIE" ∧ o.sid = some x
  · simp only [lieCredit, if_pos hc, List.countP_cons]
    by_cases h1 : vtext = o.text <;> by_cases h2 : vid = x <;>
      simp [h1, h2, hc.1, hc.2]
  · have hn : ¬ (o.type = "LIE" ∧ o.sid = some x ∧ vtext = o.text ∧ ¬ vid = x) := by
      rintro ⟨a, b, _, _⟩
      exact hc ⟨a, b⟩
    simp [lieCredit, hc, hn]

lemma truthVotes_cons (answer vid vtext : String)
    (rest : List (String × String)) (x : String) :
    truthVotes answer ((vid, vtext) :: rest) x =
      truthVotes answer rest x + (if vid = x ∧ vtext = answer then 1 else 0) := by
  simp only [truthVotes, List.countP_cons]
  by_cases h1 : vid = x <;> by_cases h2 : vtext = answer <;> simp [h1, h2]

lemma award_author_lookup {o : OptionEntry} {vid : String}
    {ps ps' : List (String × Player)} (h : award_author o vid ps = some ps')
    (x : String) :
    lookup x ps' =
      (lookup x ps).map
        (scoreAdd (if o.type = "LIE" ∧ o.sid = some x ∧ ¬ vid = x then 500 else 0)) := by
  unfold award_author at h
  by_cases hty : o.type = "LIE"
  · rw [if_pos hty] at h
    cases hs : o.sid with
    | none => rw [hs] at h; simp only at h; exact absurd h (by simp)
    | some a =>
      rw [hs] at h
      simp only at h
      by_cases hv : vid = a
      · rw [if_pos hv] at h
        simp only [Option.some.injEq] at h
        subst h
        have hn : ¬ (o.type = "LIE" ∧ a = x ∧ ¬ vid = x) := by
          rintro ⟨_, hax, hvx⟩
          exact hvx (hax ▸ hv)
        simp [hs, hn, map_scoreAdd_zero]
      · rw [if_neg hv] at h
        have hA := addScore_lookup h x
        by_cases hx : x = a
        · subst hx
          have hp : o.type = "LIE" ∧ x = x ∧ ¬ vid = x := ⟨hty, rfl, hv⟩
          simp only [if_pos rfl] at hA
          simp [hs, hA, hp]
        · have hn : ¬ (o.type = "LIE" ∧ a = x ∧ ¬ vid = x) := by
            rintro ⟨_, hax, _⟩
            exact hx hax.symm
          simp only [if_neg hx] at hA
          simp [hs, hA, hn, map_scoreAdd_zero]
  · rw [if_neg hty] at h
    simp only [Option.some.injEq] at h
    subst h
    have hn : ¬ (o.type = "LIE" ∧ o.sid = some x ∧ ¬ vid = x) := by
      rintro ⟨a, _, _⟩
      exact hty a
    simp [hn, map_scoreAdd_zero]

lemma lie_pass_lookup {o : OptionEntry} {votes : List (String × String)}
    {ps ps' : List (String × Player)} {vs : List String}
    (h : lie_pass o votes ps = some (vs, ps')) (x : String) :
    lookup x ps' = (lookup x ps).map (scoreAdd (500 * lieCredit o votes x)) := by
  induction votes generalizing ps ps' vs with
  | nil =>
    simp only [lie_pass, Option.some.injEq, Prod.mk.injEq] at h
    obtain ⟨_, hps⟩ := h
    subst hps
    simp [lieCredit_nil, map_scoreAdd_zero]
  | cons v rest ih =>
    obtain ⟨vid, vtext⟩ := v
    simp only [lie_pass] at h
    split at h
    · rename_i heq
      cases hlv : lookup vid ps with
      | none => rw [hlv] at h; simp at h
      | some pv =>
        rw [hlv] at h
        simp only at h
        cases haw : award_author o vid ps with
        | none => rw [haw] at h; simp at h
        | some ps1 =>
          rw [haw] at h
          simp only at h
          cases hlp : lie_pass o rest ps1 with
          | none => rw [hlp] at h; simp at h
          | some r =>
            obtain ⟨vs0, ps2⟩ := r
            rw [hlp] at h
            simp only [Option.some.injEq, Prod.mk.injEq] at h
            obtain ⟨_, hps2⟩ := h
            subst hps2
            have h1 := award_author_lookup haw x
            have h2 := ih hlp
            rw [h2, h1, Option.map_map]
            rw [lieCredit_cons]
            congr 1
            funext p
            simp only [Function.comp_apply, scoreAdd_scoreAdd]
            congr 1
            by_cases hc : o.type = "LIE" ∧ o.sid = some x ∧ ¬ vid = x
            · have hc' : o.type = "LIE" ∧ o.sid = some x ∧ vtext = o.text ∧ ¬ vid = x :=
                ⟨hc.1, hc.2.1, heq, hc.2.2⟩
              simp only [if_pos hc, if_pos hc']
              ring
            · have hc' : ¬ (o.type = "LIE" ∧ o.sid = some x ∧ vtext = o.text ∧ ¬ vid = x) := by
                rintro ⟨a, b, _, c⟩
                exact hc ⟨a, b, c⟩
              simp only [if_neg hc, if_neg hc']
              ring
    · rename_i hne
      have h2 := ih h
      rw [h2, lieCredit_cons]
      have hc' : ¬ (o.type = "LIE" ∧ o.sid = some x ∧ vtext = o.text ∧ ¬ vid = x) := by
        rintro ⟨_, _, hteq, _⟩
        exact hne hteq
      simp [hc']

lemma lieCredits_nil (votes : List (String × String)) (x : String) :
    lieCredits [] votes x = 0 := by
  simp [lieCredits]

lemma lieCredits_cons (o : OptionEntry) (os : List OptionEntry)
    (votes : List (String × String)) (x : String) :
    lieCredits (o :: os) votes x = lieCredit o votes x + lieCredits os votes x := by
  simp [lieCredits]

lemma lieCredit_truth_type {o : OptionEntry} (h : o.type = "TRUTH")
    (votes : List (String × String)) (x : String) : lieCredit o votes x = 0 := by
  have hn : ¬ (o.type = "LIE" ∧ o.sid = some x) := by
    rintro ⟨ha, _⟩
    rw [h] at ha
    exact absurd ha (by decide)
  simp [lieCredit, hn]

lemma reveal_lies_lookup {options : List OptionEntry}
    {votes : List (String × String)} {ps ps' : List (String × Player)}
    {evs : List RevealEvent}
    (h : reveal_lies options votes ps = some (ps', evs)) (x : String) :
    lookup x ps' = (lookup x ps).map (scoreAdd (500 * lieCredits options votes x)) := by
  induction options generalizing ps ps' evs with
  | nil =>
    simp only [reveal_lies, Option.some.injEq, Prod.mk.injEq] at h
    obtain ⟨hps, _⟩ := h
    subst hps
    simp [lieCredits_nil, map_scoreAdd_zero]
  | cons o os ih =>
    simp only [reveal_lies] at h
    split at h
    · rename_i ht
      have h2 := ih h
      rw [h2, lieCredits_cons, lieCredit_truth_type ht]
      simp
    · rename_i ht
      cases hlp : lie_pass o votes ps with
      | none => rw [hlp] at h; simp at h
      | some r =>
        obtain ⟨vs0, ps1⟩ := r
        rw [hlp] at h
        simp only at h
        cases hrl : reveal_lies os votes ps1 with
        | none => rw [hrl] at h; simp at h
        | some r2 =>
          obtain ⟨ps2, evs2⟩ := r2
          rw [hrl] at h
          simp only [Option.some.injEq, Prod.mk.injEq] at h
          obtain ⟨hps2, _⟩ := h
          subst hps2
          have h1 := lie_pass_lookup hlp x
          have h2 := ih hrl
          rw [h2, h1, Option.map_map, lieCredits_cons]
          congr 1
          funext p
          simp only [Function.comp_apply, scoreAdd_scoreAdd]
          congr 1
          ring

lemma truth_pass_lookup {answer : String} {votes : List (String × String)}
    {ps ps' : List (String × Player)} {vs : List String}
    (h : truth_pass answer votes ps = some (vs, ps')) (x : String) :
    lookup x ps' = (lookup x ps).map (scoreAdd (1000 * truthVotes answer votes x)) := by
  induction votes generalizing ps ps' vs with
  | nil =>
    simp only [truth_pass, Option.some.injEq, Prod.mk.injEq] at h
    obtain ⟨_, hps⟩ := h
    subst hps
    simp [truthVotes, map_scoreAdd_zero]
  | cons v rest ih =>
    obtain ⟨vid, vtext⟩ := v
    simp only [truth_pass] at h
    split at h
    · rename_i heq
      cases hlv : lookup vid ps with
      | none => rw [hlv] at h; simp at h
      | some pv =>
        rw [hlv] at h
        simp only at h
        cases has : addScore vid 1000 ps with
        | none => rw [has] at h; simp at h
        | some ps1 =>
          rw [has] at h
          simp only at h
          cases htp : truth_pass answer rest ps1 with
          | none => rw [htp] at h; simp at h
          | some r =>
            obtain ⟨vs0, ps2⟩ := r
            rw [htp] at h
            simp only [Option.some.injEq, Prod.mk.injEq] at h
            obtain ⟨_, hps2⟩ := h
            subst hps2
            have h1 := addScore_lookup has x
            have h2 := ih htp
            rw [h2, h1, truthVotes_cons]
            by_cases hx : x = vid
            · subst hx
              rw [if_pos rfl, Option.map_map]
              have hone : (if x = x ∧ vtext = answer then 1 else 0) = 1 := by
                simp [heq]
              rw [hone]
              congr 1
              funext p
              simp only [Function.comp_apply, scoreAdd_scoreAdd]
              congr 1
              ring
            · have hc : ¬ (vid = x ∧ vtext = answer) := by
                rintro ⟨hvx, _⟩
                exact hx hvx.symm
              rw [if_neg hx]
              simp [hc]
    · rename_i hne
      have h2 := ih h
      rw [h2, truthVotes_cons]
      have hc : ¬ (vid = x ∧ vtext = answer) := by
        rintro ⟨_, ha⟩
        exact hne ha
      simp [hc]

-- ---------------------------------------------------------------------------
-- Lemmas: shapes of the transitions
-- ---------------------------------------------------------------------------

lemma transition_to_reveal_shape {s s' : GameState} {em : List Emission}
    (h : transition_to_reveal s = some (s', em)) :
    s'.state = Phase.REVEAL ∧ s'.votes = s.votes ∧ s'.submissions = s.submissions ∧
    s'.questions = s.questions ∧
    s'.current_question_index = s.current_question_index ∧
    s'.timer_thread = s.timer_thread ∧ s'.current_options = s.current_options ∧
    s'.house_lies_active = s.house_lies_active ∧ s'.time_left = s.time_left := by
  simp only [transition_to_reveal] at h
  split at h
  · simp at h
  · split at h
    · simp at h
    · split at h
      · simp at h
      · split at h
        · simp at h
        · simp only [Option.some.injEq, Prod.mk.injEq] at h
          obtain ⟨h1, _⟩ := h
          subst h1
          simp

lemma transition_to_reveal_players {s s' : GameState} {em : List Emission}
    (h : transition_to_reveal s = some (s', em)) {q : Question}
    (hq : s.questions[s.current_question_index]? = some q)
    (x : String) (p : Player) (hx : lookup x s.players = some p) :
    lookup x s'.players =
      some { name := p.name,
             score := p.score + 500 * lieCredits s.current_options s.votes x
                       + 1000 * truthVotes q.answer s.votes x,
             connected := p.connected } := by
  simp only [transition_to_reveal] at h
  rw [hq] at h
  simp only at h
  cases hrl : reveal_lies s.current_options s.votes s.players with
  | none => rw [hrl] at h; simp at h
  | some r =>
    obtain ⟨players1, lieEvents⟩ := r
    rw [hrl] at h
    simp only at h
    cases htp : truth_pass q.answer s.votes players1 with
    | none => rw [htp] at h; simp at h
    | some r2 =>
      obtain ⟨truthVoters, players2⟩ := r2
      rw [htp] at h
      simp only at h
      split at h
      · simp at h
      · simp only [Option.some.injEq, Prod.mk.injEq] at h
        obtain ⟨h1, _⟩ := h
        subst h1
        have hA := reveal_lies_lookup hrl x
        have hB := truth_pass_lookup htp x
        simp only
        rw [hB, hA, hx]
        rfl

lemma transition_to_voting_shape {σ : List OptionEntry → List OptionEntry}
    {s s' : GameState} {em : List Emission}
    (h : transition_to_voting σ s = some (s', em)) :
    s'.state = Phase.VOTING ∧ s'.votes = s.votes ∧ s'.submissions = s.submissions ∧
    s'.players = s.players ∧ s'.questions = s.questions ∧
    s'.current_question_index = s.current_question_index ∧
    s'.timer_thread = some TimerCb.autoAdvanceVoting ∧ s'.time_left = 30 ∧
    s'.reveal_sequence = s.reveal_sequence := by
  simp only [transition_to_voting] at h
  split at h
  · simp at h
  · split at h
    · simp at h
    · split at h
      · simp at h
      · simp only [Option.some.injEq, Prod.mk.injEq] at h
        obtain ⟨h1, _⟩ := h
        subst h1
        simp [start_timer]

lemma transition_to_voting_options {σ : List OptionEntry → List OptionEntry}
    {s s' : GameState} {em : List Emission}
    (h : transition_to_voting σ s = some (s', em)) {q : Question}
    (hq : s.questions[s.current_question_index]? = some q) :
    ∃ lieOpts, player_lie_options s.players s.submissions = some lieOpts ∧
      s'.current_options =
        σ (truth_option q :: (lieOpts ++ q.house_lies.map house_option)) := by
  simp only [transition_to_voting] at h
  rw [hq] at h
  simp only at h
  split at h
  · simp at h
  · rename_i lieOpts hlo
    split at h
    · simp at h
    · simp only [Option.some.injEq, Prod.mk.injEq] at h
      obtain ⟨h1, _⟩ := h
      subst h1
      exact ⟨lieOpts, hlo, rfl⟩

lemma transition_to_voting_house {σ : List OptionEntry → List OptionEntry}
    {s s' : GameState} {em : List Emission}
    (h : transition_to_voting σ s = some (s', em)) {q : Question}
    (hq : s.questions[s.current_question_index]? = some q) :
    s'.house_lies_active = q.house_lies := by
  simp only [transition_to_voting] at h
  rw [hq] at h
  simp only at h
  split at h
  · simp at h
  · split at h
    · simp at h
    · simp only [Option.some.injEq, Prod.mk.injEq] at h
      obtain ⟨h1, _⟩ := h
      subst h1
      rfl

-- ---------------------------------------------------------------------------
-- Lemmas: totality conditions
-- ---------------------------------------------------------------------------

lemma lookup_some_of_containsKey {α : Type} {k : String} {l : List (String × α)}
    (h : containsKey k l = true) : ∃ v, lookup k l = some v := by
  cases hl : lookup k l with
  | none => rw [containsKey, hl] at h; simp at h
  | some v => exact ⟨v, rfl⟩

lemma names_of_isSome {players : List (String × Player)} {subs : List (String × String)}
    (h : ∀ k ∈ subs.map Prod.fst, containsKey k players = true) :
    ∃ ns, names_of players subs = some ns := by
  induction subs with
  | nil => exact ⟨[], rfl⟩
  | cons e t ih =>
    obtain ⟨sid, lie⟩ := e
    obtain ⟨p, hp⟩ := lookup_some_of_containsKey (h sid (by simp))
    obtain ⟨ns, hns⟩ := ih (fun k hk => h k (by simp [hk]))
    refine ⟨p.name :: ns, ?_⟩
    simp [names_of, hp, hns]

lemma player_lie_options_isSome {players : List (String × Player)}
    {subs : List (String × String)}
    (h : ∀ k ∈ subs.map Prod.fst, containsKey k players = true) :
    ∃ os, player_lie_options players subs = some os := by
  induction subs with
  | nil => exact ⟨[], rfl⟩
  | cons e t ih =>
    obtain ⟨sid, lie⟩ := e
    obtain ⟨p, hp⟩ := lookup_some_of_containsKey (h sid (by simp))
    obtain ⟨os, hos⟩ := ih (fun k hk => h k (by simp [hk]))
    refine ⟨{ text := lie, type := "LIE", author := p.name, sid := some sid } :: os, ?_⟩
    simp [player_lie_options, hp, hos]

lemma transition_to_voting_isSome {σ : List OptionEntry → List OptionEntry}
    {s : GameState} {q : Question}
    (hq : s.questions[s.current_question_index]? = some q)
    (hkeys : ∀ k ∈ s.submissions.map Prod.fst, containsKey k s.players = true) :
    (transition_to_voting σ s).isSome = true := by
  obtain ⟨lo, hlo⟩ := player_lie_options_isSome hkeys
  simp [transition_to_voting, hq, hlo, broadcast_state, host_view]

-- ---------------------------------------------------------------------------
-- Lemmas: quorum counting
-- ---------------------------------------------------------------------------

lemma connected_count_le {players : List (String × Player)}
    {subs : List (String × String)}
    (hnd : (players.map Prod.fst).Nodup)
    (h : ∀ e ∈ players, e.2.connected = true → containsKey e.1 subs = true) :
    (players.filter (fun e => e.2.connected)).length ≤ subs.length := by
  have hsub : (players.filter (fun e => e.2.connected)).Sublist players :=
    List.filter_sublist players
  have h1 : ((players.filter (fun e => e.2.connected)).map Prod.fst).Nodup :=
    (hsub.map Prod.fst).nodup hnd
  have h2 : (players.filter (fun e => e.2.connected)).map Prod.fst ⊆
      subs.map Prod.fst := by
    intro k hk
    obtain ⟨e, he, rfl⟩ := List.mem_map.1 hk
    have hemem : e ∈ players := (List.mem_filter.1 he).1
    have hcon : e.2.connected = true := by
      have := (List.mem_filter.1 he).2
      simpa using this
    exact containsKey_mem (h e hemem hcon)
  calc (players.filter (fun e => e.2.connected)).length
      = ((players.filter (fun e => e.2.connected)).map Prod.fst).length := by
        rw [List.length_map]
    _ ≤ (subs.map Prod.fst).length := nodup_subset_length h1 h2
    _ = subs.length := List.length_map _ _

-- ---------------------------------------------------------------------------
-- Lemmas: the built option list
-- ---------------------------------------------------------------------------

lemma player_lie_options_spec {players : List (String × Player)}
    {subs : List (String × String)} {os : List OptionEntry}
    (h : player_lie_options players subs = some os) :
    List.Forall₂ (fun (sub : String × String) (o : OptionEntry) =>
      o.text = sub.2 ∧ o.sid = some sub.1 ∧ o.type = "LIE" ∧
        ∃ p, lookup sub.1 players = some p ∧ o.author = p.name) subs os := by
  induction subs generalizing os with
  | nil =>
    simp only [player_lie_options, Option.some.injEq] at h
    subst h
    exact List.Forall₂.nil
  | cons e t ih =>
    obtain ⟨sid, lie⟩ := e
    simp only [player_lie_options] at h
    cases hl : lookup sid players with
    | none => rw [hl] at h; simp at h
    | some p =>
      rw [hl] at h
      simp only at h
      cases ht : player_lie_options players t with
      | none => rw [ht] at h; simp at h
      | some os0 =>
        rw [ht] at h
        simp only [Option.map_some', Option.some.injEq] at h
        subst h
        exact List.Forall₂.cons ⟨rfl, rfl, rfl, p, hl, rfl⟩ (ih ht)

lemma player_lie_options_texts {players : List (String × Player)}
    {subs : List (String × String)} {os : List OptionEntry}
    (h : player_lie_options players subs = some os) :
    os.map (fun o => o.text) = subs.map (fun e => e.2) ∧
      ∀ o ∈ os, o.type = "LIE" := by
  induction subs generalizing os with
  | nil =>
    simp only [player_lie_options, Option.some.injEq] at h
    subst h
    simp
  | cons e t ih =>
    obtain ⟨sid, lie⟩ := e
    simp only [player_lie_options] at h
    cases hl : lookup sid players with
    | none => rw [hl] at h; simp at h
    | some p =>
      rw [hl] at h
      simp only at h
      cases ht : player_lie_options players t with
      | none => rw [ht] at h; simp at h
      | some os0 =>
        rw [ht] at h
        simp only [Option.map_some', Option.some.injEq] at h
        subst h
        obtain ⟨h1, h2⟩ := ih ht
        constructor
        · simp [h1]
        · intro o ho
          rcases List.mem_cons.1 ho with rfl | ho2
          · rfl
          · exact h2 o ho2

lemma build_filter_lie {q : Question} {lieOpts : List OptionEntry}
    (hall : ∀ o ∈ lieOpts, o.type = "LIE") :
    (truth_option q :: (lieOpts ++ q.house_lies.map house_option)).filter
        (fun o => o.type == "LIE") = lieOpts := by
  have h1 : ((truth_option q).type == "LIE") = false := by rfl
  have h2 : lieOpts.filter (fun o => o.type == "LIE") = lieOpts :=
    List.filter_eq_self.2 (fun o ho => by simp [hall o ho])
  have h3 : (q.house_lies.map house_option).filter (fun o => o.type == "LIE") = [] := by
    rw [List.filter_eq_nil_iff]
    intro o ho
    obtain ⟨l, _, rfl⟩ := List.mem_map.1 ho
    simp [house_option]
  rw [List.filter_cons, List.filter_append, h2, h3]
  simp [h1]

lemma build_filter_truth {q : Question} {lieOpts : List OptionEntry}
    (hall : ∀ o ∈ lieOpts, o.type = "LIE") :
    (truth_option q :: (lieOpts ++ q.house_lies.map house_option)).filter
        (fun o => o.type == "TRUTH") = [truth_option q] := by
  have h2 : lieOpts.filter (fun o => o.type == "TRUTH") = [] := by
    rw [List.filter_eq_nil_iff]
    intro o ho
    simp [hall o ho]
  have h3 : (q.house_lies.map house_option).filter (fun o => o.type == "TRUTH") = [] := by
    rw [List.filter_eq_nil_iff]
    intro o ho
    obtain ⟨l, _, rfl⟩ := List.mem_map.1 ho
    simp [house_option]
  rw [List.filter_cons, List.filter_append, h2, h3]
  simp [truth_option]

-- ---------------------------------------------------------------------------
-- Lemmas: handler characterizations
-- ---------------------------------------------------------------------------

lemma submit_vote_votes {s s' : GameState} {sid vote : String} {em : List Emission}
    (h : submit_vote sid vote s = some (s', em)) :
    s'.votes = upsert sid vote s.votes := by
  simp only [submit_vote] at h
  split at h
  · split at h
    · simp at h
    · rename_i s2 em2 heq
      simp only [Option.some.injEq, Prod.mk.injEq] at h
      obtain ⟨h1, _⟩ := h
      subst h1
      have hv := (transition_to_reveal_shape heq).2.1
      simpa using hv
  · simp only [Option.some.injEq, Prod.mk.injEq] at h
    obtain ⟨h1, _⟩ := h
    subst h1
    rfl

/-- Completed executions of submit_lie with a valid question index and an
accepted lie: either the recorded-submissions count reached the connected
count and the game transitioned via transition_to_voting, or it did not
and only the submissions dict changed. -/
lemma submit_lie_cases {σ : List OptionEntry → List OptionEntry}
    {s s' : GameState} {sid lie : String} {q : Question} {em : List Emission}
    (hq : s.questions[s.current_question_index]? = some q)
    (hne : ¬ lower_strip lie = lower_strip q.answer)
    (h : submit_lie σ sid lie s = some (s', em)) :
    ((s.players.filter (fun e => e.2.connected)).length ≤
        (upsert sid lie s.submissions).length ∧
      ∃ em2, transition_to_voting σ
          { s with submissions := upsert sid lie s.submissions } = some (s', em2)) ∨
    (¬ (s.players.filter (fun e => e.2.connected)).length ≤
        (upsert sid lie s.submissions).length ∧
      s' = { s with submissions := upsert sid lie s.submissions }) := by
  simp only [submit_lie] at h
  rw [hq] at h
  simp only at h
  rw [if_neg hne] at h
  split at h
  · simp at h
  · rename_i em1 hb
    split at h
    · rename_i hcond
      split at h
      · simp at h
      · rename_i s2 em2 htr
        simp only [Option.some.injEq, Prod.mk.injEq] at h
        obtain ⟨h1, _⟩ := h
        subst h1
        left
        exact ⟨by simpa using hcond, em2, htr⟩
    · rename_i hcond
      simp only [Option.some.injEq, Prod.mk.injEq] at h
      obtain ⟨h1, _⟩ := h
      subst h1
      right
      exact ⟨by simpa using hcond, rfl⟩

/-- The submit_lie rejection branch: a lie that equals the truth after
lowercasing and trimming produces exactly an error message to the
submitting client and leaves the state untouched. -/
lemma submit_lie_rejected {σ : List OptionEntry → List OptionEntry}
    {s : GameState} {sid lie : String} {q : Question}
    (hq : s.questions[s.current_question_index]? = some q)
    (heq : lower_strip lie = lower_strip q.answer) :
    submit_lie σ sid lie s =
      some (s, [(Audience.requester,
                 Payload.errorMsg "Too close to the Truth! Try again.")]) := by
  simp [submit_lie, hq, heq]

/-- next_round always completes; the index is always incremented, the
frozen options and the reveal sequence survive untouched, and the round
collections are reset exactly on the in-bounds branch. -/
lemma next_round_cases (s : GameState) :
    (next_round s).isSome = true ∧
    ∀ s' em, next_round s = some (s', em) →
      s'.current_question_index = s.current_question_index + 1 ∧
      s'.current_options = s.current_options ∧
      s'.reveal_sequence = s.reveal_sequence ∧
      (if s.current_question_index + 1 < s.questions.length then
        s'.state = Phase.BLUFF_INPUT ∧ s'.submissions = [] ∧ s'.votes = [] ∧
          s'.house_lies_active = [] ∧ s'.time_left = 60 ∧
          s'.timer_thread = some TimerCb.autoAdvanceInput
      else s'.state = Phase.SCOREBOARD) := by
  constructor
  · simp only [next_round]
    split
    · rename_i hlt
      cases hq2 : s.questions[s.current_question_index + 1]? with
      | none =>
        exfalso
        have := List.getElem?_eq_none_iff.1 hq2
        omega
      | some q2 =>
        simp [broadcast_state, host_view, hq2, names_of]
    · simp [broadcast_state, host_view]
  · intro s' em h
    simp only [next_round] at h
    split at h
    · rename_i hlt
      split at h
      · simp at h
      · simp only [Option.some.injEq, Prod.mk.injEq] at h
        obtain ⟨h1, _⟩ := h
        subst h1
        refine ⟨rfl, rfl, rfl, ?_⟩
        rw [if_pos hlt]
        exact ⟨rfl, rfl, rfl, rfl, rfl, rfl⟩
    · rename_i hge
      split at h
      · simp at h
      · simp only [Option.some.injEq, Prod.mk.injEq] at h
        obtain ⟨h1, _⟩ := h
        subst h1
        refine ⟨rfl, rfl, rfl, ?_⟩
        rw [if_neg hge]

lemma start_game_shape {s s' : GameState} {em : List Emission}
    (hne : s.questions.isEmpty = false)
    (h : start_game s = some (s', em)) :
    s'.state = Phase.BLUFF_INPUT ∧ s'.submissions = [] ∧ s'.votes = [] ∧
      s'.house_lies_active = [] ∧ s'.current_options = s.current_options ∧
      s'.reveal_sequence = s.reveal_sequence ∧ s'.time_left = 60 ∧
      s'.timer_thread = some TimerCb.autoAdvanceInput := by
  simp only [start_game, hne] at h
  simp only [Bool.false_eq_true, if_false] at h
  split at h
  · simp at h
  · simp only [Option.some.injEq, Prod.mk.injEq] at h
    obtain ⟨h1, _⟩ := h
    subst h1
    exact ⟨rfl, rfl, rfl, rfl, rfl, rfl, rfl, rfl⟩

-- ---------------------------------------------------------------------------
-- Claim theorems
-- ---------------------------------------------------------------------------

/-- C1: the claim that the VOTING-phase timer's expiry action is a
guaranteed no-op after a quorum-triggered transition to REVEAL fails on
the code.  In the single-player trace c1Trace the quorum vote enters
REVEAL with the player's score at 1000 and the 30 second voting timer
still pending (transition_to_reveal never cancels it and starts no new
timer); when that timer expires it re-runs transition_to_reveal, and the
scoring pass awards the truth bonus a second time: the score doubles to
2000 and the game is still in REVEAL. -/
theorem C1_voting_timer_refires_scoring :
    after c1Trace (fun s => (s.state, scoreOf "A" s, s.timer_thread)) =
      some (Phase.REVEAL, some 1000, some TimerCb.autoAdvanceVoting) ∧
    after (c1Trace ++ [Event.timerExpire]) (fun s => (s.state, scoreOf "A" s)) =
      some (Phase.REVEAL, some 2000) :=
  ⟨rfl, rfl⟩

/-- C2 counterexample: a submit_lie event arriving in LOBBY (outside its
valid phase BLUFF_INPUT) is not ignored: from a LOBBY state with one
question and one player, the lie is recorded and the quorum check even
transitions the game to VOTING. -/
theorem C2_out_of_phase_lie_changes_state :
    after c2PreTrace (fun s => s.state) = some Phase.LOBBY ∧
    after c2LieTrace (fun s => (s.state, s.submissions)) =
      some (Phase.VOTING, [("A", "L")]) :=
  ⟨rfl, rfl⟩

/-- C2 amended: neither handler checks the phase.  Whenever submit_vote
completes without raising, in any phase, it records the vote exactly as
in VOTING; whenever submit_lie completes without raising (valid question
index, lie not equal to the truth after folding), in any phase, it
records the submission exactly as in BLUFF_INPUT, and the quorum logic
can transition the state from any phase. -/
theorem C2_handlers_lack_phase_guard :
    (∀ (s : GameState) (sid vote : String) (s' : GameState) (em : List Emission),
      submit_vote sid vote s = some (s', em) →
      s'.votes = upsert sid vote s.votes) ∧
    (∀ (σ : List OptionEntry → List OptionEntry) (s : GameState)
        (sid lie : String) (q : Question) (s' : GameState) (em : List Emission),
      s.questions[s.current_question_index]? = some q →
      ¬ lower_strip lie = lower_strip q.answer →
      submit_lie σ sid lie s = some (s', em) →
      s'.submissions = upsert sid lie s.submissions) := by
  constructor
  · intro s sid vote s' em h
    exact submit_vote_votes h
  · intro σ s sid lie q s' em hq hne h
    rcases submit_lie_cases hq hne h with ⟨_, em2, htr⟩ | ⟨_, rfl⟩
    · have hs := (transition_to_voting_shape htr).2.2.1
      simpa using hs
    · rfl

theorem C2_handlers_lack_phase_guard_witness :
    c2Pair.1.votes = upsert "A" "nope" c2State.votes ∧
    c2LiePair.1.submissions = upsert "A" "L" c2bState.submissions :=
  ⟨C2_handlers_lack_phase_guard.1 c2State "A" "nope" c2Pair.1 c2Pair.2 rfl,
   C2_handlers_lack_phase_guard.2 id c2bState "A" "L"
     { text := "Q", answer := "T", house_lies := [] } c2LiePair.1 c2LiePair.2
     rfl (by decide) rfl⟩

/-- C3 counterexample: at the BLUFF_INPUT instant reached through
next_round after a completed round, Submissions, Votes and the active
house lies are empty, but the frozen Options and the RevealEvents of the
previous round are still present (reset_round_data never clears
current_options or reveal_sequence), so the claim that all four
round-scoped collections are empty is false. -/
theorem C3_options_not_cleared_at_round_start :
    after c3Trace (fun s =>
      (s.state, s.submissions, s.votes, s.house_lies_active,
       s.current_options.length, s.reveal_sequence.length)) =
      some (Phase.BLUFF_INPUT, [], [], [], 2, 2) :=
  rfl

/-- C3 amended: at every BLUFF_INPUT entry (start_game or in-bounds
next_round) Submissions, Votes and the active house lies are empty, but
Options and RevealEvents are not cleared: both transitions leave
current_options and reveal_sequence exactly as they were, so they still
hold the previous round's values until VOTING / REVEAL overwrite them. -/
theorem C3_round_reset_scope :
    (∀ (s s' : GameState) (em : List Emission),
      next_round s = some (s', em) →
      s'.current_options = s.current_options ∧
      s'.reveal_sequence = s.reveal_sequence ∧
      (s'.state = Phase.BLUFF_INPUT →
        s'.submissions = [] ∧ s'.votes = [] ∧ s'.house_lies_active = [])) ∧
    (∀ (s s' : GameState) (em : List Emission),
      s.questions.isEmpty = false →
      start_game s = some (s', em) →
      s'.state = Phase.BLUFF_INPUT ∧ s'.submissions = [] ∧ s'.votes = [] ∧
        s'.house_lies_active = [] ∧ s'.current_options = s.current_options ∧
        s'.reveal_sequence = s.reveal_sequence) := by
  constructor
  · intro s s' em h
    obtain ⟨hidx, hopt, hrev, hcond⟩ := (next_round_cases s).2 s' em h
    refine ⟨hopt, hrev, ?_⟩
    intro hst
    by_cases hlt : s.current_question_index + 1 < s.questions.length
    · rw [if_pos hlt] at hcond
      exact ⟨hcond.2.1, hcond.2.2.1, hcond.2.2.2.1⟩
    · rw [if_neg hlt] at hcond
      rw [hcond] at hst
      exact absurd hst (by decide)
  · intro s s' em hne h
    obtain ⟨h1, h2, h3, h4, h5, h6, _, _⟩ := start_game_shape hne h
    exact ⟨h1, h2, h3, h4, h5, h6⟩

theorem C3_round_reset_scope_witness :
    (c3Pair.1.current_options = c3State.current_options ∧
      c3Pair.1.reveal_sequence = c3State.reveal_sequence ∧
      (c3Pair.1.state = Phase.BLUFF_INPUT →
        c3Pair.1.submissions = [] ∧ c3Pair.1.votes = [] ∧
          c3Pair.1.house_lies_active = [])) ∧
    (c3bPair.1.state = Phase.BLUFF_INPUT ∧ c3bPair.1.submissions = [] ∧
      c3bPair.1.votes = [] ∧ c3bPair.1.house_lies_active = [] ∧
      c3bPair.1.current_options = c3bState.current_options ∧
      c3bPair.1.reveal_sequence = c3bState.reveal_sequence) :=
  ⟨C3_round_reset_scope.1 c3State c3Pair.1 c3Pair.2 rfl,
   C3_round_reset_scope.2 c3bState c3bPair.1 c3bPair.2 rfl rfl⟩

/-- C4 counterexample: the transition to VOTING does not fire if and only
if every connected player has a submission.  In c4Trace, Alice and Bob
submit and then disconnect; Carol's submission makes the submission count
(3) reach the connected count (2), so the game transitions to VOTING even
though the connected player Dave has no recorded submission — the two
disconnected players' submissions substituted for his. -/
theorem C4_quorum_counts_disconnected_submissions :
    after c4Trace.dropLast (fun s => s.state) = some Phase.BLUFF_INPUT ∧
    after c4Trace (fun s =>
      (s.state, (lookup "D" s.players).map (fun p => p.connected),
       lookup "D" s.submissions)) = some (Phase.VOTING, some true, none) :=
  ⟨rfl, rfl⟩

/-- C4 amended: after a lie is recorded in BLUFF_INPUT, the transition
to VOTING fires if and only if the number of recorded submissions is at
least the number of connected players.  Submissions of disconnected
players count toward that total, so a connected player without a
submission does not always block the transition; in particular, if every
connected player has a submission the transition does fire, and a
disconnected player lacking a submission never blocks it. -/
theorem C4_quorum_is_count_based :
    ∀ (σ : List OptionEntry → List OptionEntry) (s : GameState) (sid lie : String)
      (q : Question) (s' : GameState) (em : List Emission),
      s.state = Phase.BLUFF_INPUT →
      s.questions[s.current_question_index]? = some q →
      ¬ lower_strip lie = lower_strip q.answer →
      (s.players.map Prod.fst).Nodup →
      submit_lie σ sid lie s = some (s', em) →
      ((s'.state = Phase.VOTING ↔
          (s.players.filter (fun e => e.2.connected)).length ≤
            (upsert sid lie s.submissions).length) ∧
        ((∀ e ∈ s.players, e.2.connected = true →
            containsKey e.1 (upsert sid lie s.submissions) = true) →
          s'.state = Phase.VOTING)) := by
  intro σ s sid lie q s' em hst hq hne hnd h
  rcases submit_lie_cases hq hne h with ⟨hcond, em2, htr⟩ | ⟨hcond, rfl⟩
  · have hv := (transition_to_voting_shape htr).1
    exact ⟨⟨fun _ => hcond, fun _ => hv⟩, fun _ => hv⟩
  · constructor
    · constructor
      · intro habs
        have habs' : s.state = Phase.VOTING := habs
        rw [hst] at habs'
        exact absurd habs' (by decide)
      · intro hcount
        exact absurd hcount hcond
    · intro hall
      exact absurd (connected_count_le hnd hall) hcond

theorem C4_quorum_is_count_based_witness :
    (c4Pair.1.state = Phase.VOTING ↔
      (c4State.players.filter (fun e => e.2.connected)).length ≤
        (upsert "A" "L" c4State.submissions).length) ∧
    ((∀ e ∈ c4State.players, e.2.connected = true →
        containsKey e.1 (upsert "A" "L" c4State.submissions) = true) →
      c4Pair.1.state = Phase.VOTING) :=
  C4_quorum_is_count_based id c4State "A" "L"
    { text := "Q", answer := "T", house_lies := [] } c4Pair.1 c4Pair.2
    rfl rfl (by decide) (by decide) rfl

/-- C5: the scoring law of one execution of the scoring pass.  For each
player x, the new score is the old score plus 500 per (vote, option)
match in which the option is a player lie authored by x and the voter is
someone else, plus 1000 per vote by x whose text equals the truth.  A
vote matching x's own lie contributes nothing (the voter filter excludes
it), a vote matching a house lie contributes to no one (only LIE-typed
options with a sid appear in the sum), and names and connection flags
are unchanged.  This is exactly the claim's case analysis: a truth vote
pays its voter exactly 1000, a foreign player-lie vote pays the author
exactly 500 and the voter 0, an own-lie vote and a house-lie vote pay no
one. -/
theorem C5_scoring_law :
    ∀ (s : GameState) (q : Question) (s' : GameState) (em : List Emission),
      s.questions[s.current_question_index]? = some q →
      transition_to_reveal s = some (s', em) →
      ∀ (x : String) (p : Player), lookup x s.players = some p →
        lookup x s'.players =
          some { name := p.name,
                 score := p.score + 500 * lieCredits s.current_options s.votes x
                           + 1000 * truthVotes q.answer s.votes x,
                 connected := p.connected } := by
  intro s q s' em hq h x p hx
  exact transition_to_reveal_players h hq x p hx

theorem C5_scoring_law_witness :
    lookup "P2" c5Pair.1.players =
      some { name := "P2",
             score := 0 + 500 * lieCredits c5State.current_options c5State.votes "P2"
                       + 1000 * truthVotes "Paris" c5State.votes "P2",
             connected := true } :=
  C5_scoring_law c5State
    { text := "Capital?", answer := "Paris", house_lies := ["Lyon"] }
    c5Pair.1 c5Pair.2 rfl rfl "P2" { name := "P2", score := 0, connected := true } rfl

/-- C6 counterexample: the clause that the rejected text never appears
among the round's Options is false.  With truth Paris, Alice's submission
Paris is rejected (error emitted, nothing recorded, phase unchanged),
yet after the input timer expires the frozen Options contain the text
Paris — as the TRUTH option. -/
theorem C6_rejected_text_reappears_in_options :
    after (c6Trace ++ [Event.submitLie "A" "Paris"])
        (fun s => (s.state, s.submissions)) = some (Phase.BLUFF_INPUT, []) ∧
    (run initial_state c6Trace).bind (fun s1 =>
        (step id s1 (Event.submitLie "A" "Paris")).map (fun r => r.2)) =
      some [(Audience.requester,
             Payload.errorMsg "Too close to the Truth! Try again.")] ∧
    after (c6Trace ++ [Event.submitLie "A" "Paris", Event.timerExpire])
        (fun s => s.current_options.map (fun o => o.text)) =
      some ["Paris", "Alice fell asleep"] ∧
    after (c6Trace ++ [Event.submitLie "A" "Paris", Event.timerExpire])
        (fun s => (s.current_options.map (fun o => o.text)).contains "Paris") =
      some true :=
  ⟨rfl, rfl, rfl, rfl⟩

/-- C6 amended: a lie equal to the truth under the case- and
whitespace-insensitive fold is rejected: the error message is emitted to
the submitter and the state is completely unchanged, so the rejected
submission is never recorded and contributes no option; any other lie is
recorded, overwriting the player's previous submission; and the LIE
options frozen at VOTING entry carry exactly the recorded submissions'
texts — so the rejected text can reappear among Options only as the
TRUTH option, a house decoy, or a synthesized placeholder that happens
to coincide with it, never through the rejected submission itself. -/
theorem C6_truth_like_lie_rejected :
    (∀ (σ : List OptionEntry → List OptionEntry) (s : GameState)
        (sid lie : String) (q : Question),
      s.questions[s.current_question_index]? = some q →
      lower_strip lie = lower_strip q.answer →
      submit_lie σ sid lie s =
        some (s, [(Audience.requester,
                   Payload.errorMsg "Too close to the Truth! Try again.")])) ∧
    (∀ (σ : List OptionEntry → List OptionEntry) (s : GameState)
        (sid lie : String) (q : Question) (s' : GameState) (em : List Emission),
      s.questions[s.current_question_index]? = some q →
      ¬ lower_strip lie = lower_strip q.answer →
      submit_lie σ sid lie s = some (s', em) →
      s'.submissions = upsert sid lie s.submissions) ∧
    (∀ (σ : List OptionEntry → List OptionEntry),
      (∀ l, (σ l).Perm l) →
      ∀ (s : GameState) (q : Question) (s' : GameState) (em : List Emission),
      s.questions[s.current_question_index]? = some q →
      transition_to_voting σ s = some (s', em) →
      ((s'.current_options.filter (fun o => o.type == "LIE")).map
          (fun o => o.text)).Perm (s.submissions.map (fun e => e.2))) := by
  refine ⟨?_, ?_, ?_⟩
  · intro σ s sid lie q hq heq
    exact submit_lie_rejected hq heq
  · intro σ s sid lie q s' em hq hne h
    rcases submit_lie_cases hq hne h with ⟨_, em2, htr⟩ | ⟨_, rfl⟩
    · have hs := (transition_to_voting_shape htr).2.2.1
      simpa using hs
    · rfl
  · intro σ hσ s q s' em hq htr
    obtain ⟨lieOpts, hlo, hopts⟩ := transition_to_voting_options htr hq
    obtain ⟨htexts, hall⟩ := player_lie_options_texts hlo
    have h1 := (hσ (truth_option q :: (lieOpts ++ q.house_lies.map house_option))).filter
      (fun o => o.type == "LIE")
    rw [build_filter_lie hall] at h1
    rw [hopts]
    have h2 := h1.map (fun o => o.text)
    rw [htexts] at h2
    exact h2

theorem C6_truth_like_lie_rejected_witness :
    submit_lie id "A" " PARIS " c6wState =
      some (c6wState, [(Audience.requester,
                        Payload.errorMsg "Too close to the Truth! Try again.")]) ∧
    c6wPair.1.submissions = upsert "A" "Berlin" c6wState.submissions ∧
    ((c6tPair.1.current_options.filter (fun o => o.type == "LIE")).map
        (fun o => o.text)).Perm (c6tState.submissions.map (fun e => e.2)) :=
  ⟨C6_truth_like_lie_rejected.1 id c6wState "A" " PARIS "
     { text := "Q", answer := "Paris", house_lies := [] } rfl (by decide),
   C6_truth_like_lie_rejected.2.1 id c6wState "A" "Berlin"
     { text := "Q", answer := "Paris", house_lies := [] } c6wPair.1 c6wPair.2
     rfl (by decide) rfl,
   C6_truth_like_lie_rejected.2.2 id (fun l => List.Perm.refl l) c6tState
     { text := "Q", answer := "Paris", house_lies := ["Lyon"] }
     c6tPair.1 c6tPair.2 rfl rfl⟩

/-- C7: at entry to VOTING (both the quorum path and the timer path call
transition_to_voting), the frozen Options list is a permutation of one
TRUTH option carrying the current question's truth, one LIE option per
recorded submission carrying that submission's text, its author's sid
and registered name, and one HOUSE_LIE option per decoy of the current
question; exactly one TRUTH option is present; the active house lies are
exactly the question's decoys; and add_question filters whitespace-only
decoys when the question is created, so decoys of bank questions are
non-empty. -/
theorem C7_options_at_voting_entry :
    (∀ (σ : List OptionEntry → List OptionEntry),
      (∀ l, (σ l).Perm l) →
      ∀ (s : GameState) (q : Question) (lieOpts : List OptionEntry)
        (s' : GameState) (em : List Emission),
      s.questions[s.current_question_index]? = some q →
      player_lie_options s.players s.submissions = some lieOpts →
      transition_to_voting σ s = some (s', em) →
      (s'.current_options.Perm
          (truth_option q :: (lieOpts ++ q.house_lies.map house_option)) ∧
        List.Forall₂ (fun (sub : String × String) (o : OptionEntry) =>
          o.text = sub.2 ∧ o.sid = some sub.1 ∧ o.type = "LIE" ∧
            ∃ p, lookup sub.1 s.players = some p ∧ o.author = p.name)
          s.submissions lieOpts ∧
        (s'.current_options.filter (fun o => o.type == "TRUTH")).length = 1 ∧
        s'.house_lies_active = q.house_lies)) ∧
    (∀ (s : GameState) (qtext ans : String) (hl : List String)
        (s' : GameState) (em : List Emission),
      add_question qtext ans hl s = some (s', em) →
      s'.questions = s.questions ++
        [{ text := qtext, answer := ans,
           house_lies := hl.filter (fun l => strip_str l ≠ "") }]) := by
  constructor
  · intro σ hσ s q lieOpts s' em hq hlo htr
    obtain ⟨lieOpts2, hlo2, hopts⟩ := transition_to_voting_options htr hq
    rw [hlo] at hlo2
    simp only [Option.some.injEq] at hlo2
    subst hlo2
    obtain ⟨_, hall⟩ := player_lie_options_texts hlo
    refine ⟨?_, player_lie_options_spec hlo, ?_, transition_to_voting_house htr hq⟩
    · rw [hopts]
      exact hσ _
    · rw [hopts]
      have h2 := (hσ (truth_option q :: (lieOpts ++ q.house_lies.map house_option))).filter
        (fun o => o.type == "TRUTH")
      rw [build_filter_truth hall] at h2
      exact h2.length_eq.trans rfl
  · intro s qtext ans hl s' em h
    simp only [add_question, Option.some.injEq, Prod.mk.injEq] at h
    obtain ⟨h1, _⟩ := h
    subst h1
    rfl

theorem C7_options_at_voting_entry_witness :
    (c7Pair.1.current_options.Perm
        (truth_option { text := "Q", answer := "T", house_lies := ["H1"] } ::
          (c7LieOpts ++ (["H1"].map house_option))) ∧
      List.Forall₂ (fun (sub : String × String) (o : OptionEntry) =>
        o.text = sub.2 ∧ o.sid = some sub.1 ∧ o.type = "LIE" ∧
          ∃ p, lookup sub.1 c7State.players = some p ∧ o.author = p.name)
        c7State.submissions c7LieOpts ∧
      (c7Pair.1.current_options.filter (fun o => o.type == "TRUTH")).length = 1 ∧
      c7Pair.1.house_lies_active = ["H1"]) :=
  C7_options_at_voting_entry.1 id (fun l => List.Perm.refl l) c7State
    { text := "Q", answer := "T", house_lies := ["H1"] } c7LieOpts
    c7Pair.1 c7Pair.2 rfl rfl rfl

/-- C8: next_round always completes; it increments questionIndex, and
the game re-enters BLUFF_INPUT (with reset round collections, a fresh
60 second timer and the input expiry callback pending) exactly when the
incremented index is still within the question bank, otherwise it enters
SCOREBOARD. -/
theorem C8_next_round_advance :
    ∀ s : GameState, s.state = Phase.REVEAL →
      (next_round s).isSome = true ∧
      ∀ (s' : GameState) (em : List Emission), next_round s = some (s', em) →
        s'.current_question_index = s.current_question_index + 1 ∧
        (s'.state = Phase.BLUFF_INPUT ↔
          s.current_question_index + 1 < s.questions.length) ∧
        (s'.state = Phase.BLUFF_INPUT →
          s'.submissions = [] ∧ s'.votes = [] ∧ s'.house_lies_active = [] ∧
            s'.time_left = 60 ∧ s'.timer_thread = some TimerCb.autoAdvanceInput) ∧
        (¬ s.current_question_index + 1 < s.questions.length →
          s'.state = Phase.SCOREBOARD) := by
  intro s hst
  refine ⟨(next_round_cases s).1, ?_⟩
  intro s' em h
  obtain ⟨hidx, _, _, hcond⟩ := (next_round_cases s).2 s' em h
  by_cases hlt : s.current_question_index + 1 < s.questions.length
  · rw [if_pos hlt] at hcond
    exact ⟨hidx, ⟨fun _ => hlt, fun _ => hcond.1⟩,
      fun _ => ⟨hcond.2.1, hcond.2.2.1, hcond.2.2.2.1,
        hcond.2.2.2.2.1, hcond.2.2.2.2.2⟩,
      fun habs => absurd hlt habs⟩
  · rw [if_neg hlt] at hcond
    refine ⟨hidx, ⟨?_, ?_⟩, ?_, fun _ => hcond⟩
    · intro habs
      rw [hcond] at habs
      exact absurd habs (by decide)
    · intro hl
      exact absurd hl hlt
    · intro habs
      rw [hcond] at habs
      exact absurd habs (by decide)

theorem C8_next_round_advance_witness :
    (next_round c8State).isSome = true ∧
    (c8Pair.1.current_question_index = c8State.current_question_index + 1 ∧
      (c8Pair.1.state = Phase.BLUFF_INPUT ↔
        c8State.current_question_index + 1 < c8State.questions.length) ∧
      (c8Pair.1.state = Phase.BLUFF_INPUT →
        c8Pair.1.submissions = [] ∧ c8Pair.1.votes = [] ∧
          c8Pair.1.house_lies_active = [] ∧ c8Pair.1.time_left = 60 ∧
          c8Pair.1.timer_thread = some TimerCb.autoAdvanceInput) ∧
      (¬ c8State.current_question_index + 1 < c8State.questions.length →
        c8Pair.1.state = Phase.SCOREBOARD)) :=
  ⟨(C8_next_round_advance c8State rfl).1,
   (C8_next_round_advance c8State rfl).2 c8Pair.1 c8Pair.2 rfl⟩

/-- C9: the claim that players receive a payload without the
kind/author discriminators fails on the code.  In the concrete
VOTING-entering step below, the handler emits exactly three payloads:
the acknowledgement to the submitter, and two state updates addressed to
all connected clients — players included — the second of which carries
the full frozen options, each entry exposing its type (TRUTH / LIE /
HOUSE_LIE), author and sid.  No stripped player view exists anywhere in
the code: broadcast_state builds one host payload and emits it to
everyone, so the truth is identifiable from the player-visible wire
payload. -/
theorem C9_full_payload_broadcast_to_all :
    (run initial_state c9Pre).bind (fun s1 =>
        (step id s1 (Event.submitLie "A" "L")).map
          (fun r => r.2.map emissionOptionsView)) =
      some [(Audience.requester, none), (Audience.all, none),
            (Audience.all,
             some [{ text := "T", type := "TRUTH", author := "HOUSE", sid := none },
                   { text := "L", type := "LIE", author := "Alice", sid := some "A" },
                   { text := "H", type := "HOUSE_LIE", author := "HOUSE", sid := none }])] ∧
    after (c9Pre ++ [Event.submitLie "A" "L"]) (fun s => s.state) =
      some Phase.VOTING :=
  ⟨rfl, rfl⟩

/-- C10: a submit_lie event arriving while the question index is out of
the bank's bounds (the empty bank in LOBBY, or SCOREBOARD where the
index equals the bank's length) is not a no-op and produces no error
message: the handler's read of the current question raises an uncaught
IndexError, modelled here as the step returning none. -/
theorem C10_submit_lie_out_of_bounds_raises :
    ∀ (σ : List OptionEntry → List OptionEntry) (s : GameState) (sid lie : String),
      s.questions.length ≤ s.current_question_index →
      step σ s (Event.submitLie sid lie) = none := by
  intro σ s sid lie h
  simp only [step, submit_lie]
  rw [List.getElem?_eq_none h]

theorem C10_submit_lie_out_of_bounds_raises_witness :
    initial_state.questions.length ≤ initial_state.current_question_index ∧
    step id initial_state (Event.submitLie "A" "x") = none :=
  ⟨Nat.le_refl 0,
   C10_submit_lie_out_of_bounds_raises id initial_state "A" "x" (Nat.le_refl 0)⟩
